import Mathlib

/-!
Verification of the TEP-64 token-data content decoder (src/TEP64Parser.py).

Text values that flow through the decoder (URIs, fetched bodies, metadata
values, error causes) are represented by their UTF-8 byte sequences
(`Str := List Nat`); attribute names, which appear as Python string
literals in the source, are kept as Lean `String` and hashed through an
explicit UTF-8 encoder.  The cell-reader adapter (the external
`pytoniq_core` library) is modelled after the interface the design
document ascribes to it: a cursor over the bits of the current cell, the
list of its child cells, and the decoded dictionary view of the cell.
-/

/-- UTF-8 byte sequence standing for a Python `str` value. -/
abbrev Str := List Nat

/-- UTF-8 encoding of a single code point. -/
def utf8EncodeChar (c : Char) : List Nat :=
  let n := c.toNat
  if n < 128 then [n]
  else if n < 2048 then
    [192 ||| (n >>> 6), 128 ||| (n &&& 63)]
  else if n < 65536 then
    [224 ||| (n >>> 12), 128 ||| ((n >>> 6) &&& 63), 128 ||| (n &&& 63)]
  else
    [240 ||| (n >>> 18), 128 ||| ((n >>> 12) &&& 63),
     128 ||| ((n >>> 6) &&& 63), 128 ||| (n &&& 63)]

/-- UTF-8 encoding of a string, as performed by `key_string.encode` in the
source and implicitly by every `str`/byte boundary of the program. -/
def strBytes (s : String) : Str :=
  s.data.flatMap utf8EncodeChar

/-- Fold a list of bits into a number using the given base.  With base 2 it
is the value of the bits read big-endian; with base 10 it is the number the
Python builtin `int` returns on the 0/1 character string produced by
`bitarray.to01` (the conversion the source performs on the prefix bits). -/
def bitFold (base : Nat) (l : List Bool) : Nat :=
  l.foldl (fun a b => base * a + cond b 1 0) 0

/-- The true unsigned value of a bit string (big-endian). -/
def bitsToNatBE (l : List Bool) : Nat := bitFold 2 l

/-- The number `int(bits.to01())` computes in the source: the 0/1 digit
string of the bits read as a decimal numeral. -/
def pyIntOfBits (l : List Bool) : Nat := bitFold 10 l

/-- The eight bits of a byte, most significant first. -/
def byteBits (n : Nat) : List Bool :=
  [n.testBit 7, n.testBit 6, n.testBit 5, n.testBit 4,
   n.testBit 3, n.testBit 2, n.testBit 1, n.testBit 0]

/-- Bits of a byte sequence, most significant bit of each byte first. -/
def bytesToBits (l : List Nat) : List Bool :=
  l.flatMap byteBits

/-- Regroup a bit string into bytes; fails when the length is not a
multiple of eight (the adapter refuses to decode such a remainder as
text). -/
def bitsToBytes : List Bool → Option (List Nat)
  | [] => some []
  | b7 :: b6 :: b5 :: b4 :: b3 :: b2 :: b1 :: b0 :: rest =>
      (bitsToBytes rest).map
        (fun tail => bitsToNatBE [b7, b6, b5, b4, b3, b2, b1, b0] :: tail)
  | _ => none

/-! ### SHA-256

Model of the `hashlib.sha256` routine the source uses to derive the
256-bit dictionary keys from attribute names (FIPS 180-4). -/

/-- Truncation to a 32-bit word. -/
def w32 (n : Nat) : Nat := n % 4294967296

/-- Rotate the low 32 bits of a number right by n places. -/
def rotr32 (n x : Nat) : Nat :=
  w32 ((x >>> n) ||| (x <<< (32 - n)))

/-- Round mixing function on the register a. -/
def mixA (x : Nat) : Nat := rotr32 2 x ^^^ rotr32 13 x ^^^ rotr32 22 x

/-- Round mixing function on the register e. -/
def mixE (x : Nat) : Nat := rotr32 6 x ^^^ rotr32 11 x ^^^ rotr32 25 x

/-- Schedule mixing function, first flavour. -/
def mixS0 (x : Nat) : Nat := rotr32 7 x ^^^ rotr32 18 x ^^^ (x >>> 3)

/-- Schedule mixing function, second flavour. -/
def mixS1 (x : Nat) : Nat := rotr32 17 x ^^^ rotr32 19 x ^^^ (x >>> 10)

/-- The sixty-four round constants of the hash (fractional parts of the
cube roots of the first primes), written in decimal. -/
def sha256K : List Nat :=
  [1116352408, 1899447441, 3049323471, 3921009573, 961987163,
   1508970993, 2453635748, 2870763221, 3624381080, 310598401,
   607225278, 1426881987, 1925078388, 2162078206, 2614888103,
   3248222580, 3835390401, 4022224774, 264347078, 604807628,
   770255983, 1249150122, 1555081692, 1996064986, 2554220882,
   2821834349, 2952996808, 3210313671, 3336571891, 3584528711,
   113926993, 338241895, 666307205, 773529912, 1294757372,
   1396182291, 1695183700, 1986661051, 2177026350, 2456956037,
   2730485921, 2820302411, 3259730800, 3345764771, 3516065817,
   3600352804, 4094571909, 275423344, 430227734, 506948616,
   659060556, 883997877, 958139571, 1322822218, 1537002063,
   1747873779, 1955562222, 2024104815, 2227730452, 2361852424,
   2428436474, 2756734187, 3204031479, 3329325298]

/-- The eight initial words of the hash state, written in decimal. -/
def sha256H0 : List Nat :=
  [1779033703, 3144134277, 1013904242, 2773480762,
   1359893119, 2600822924, 528734635, 1541459225]

/-- Big-endian eight-byte encoding of a length in bits. -/
def be64 (n : Nat) : List Nat :=
  [(n >>> 56) % 256, (n >>> 48) % 256, (n >>> 40) % 256, (n >>> 32) % 256,
   (n >>> 24) % 256, (n >>> 16) % 256, (n >>> 8) % 256, n % 256]

/-- SHA-256 message padding: a 0x80 byte, zeros up to 56 mod 64, then the
message length in bits as a big-endian 64-bit number. -/
def sha256pad (ms : List Nat) : List Nat :=
  let L := ms.length
  let k := (119 - L % 64) % 64
  ms ++ [128] ++ List.replicate k 0 ++ be64 (8 * L)

/-- Group bytes into big-endian 32-bit words. -/
def words32 : List Nat → List Nat
  | a :: b :: c :: d :: rest => (((a * 256 + b) * 256 + c) * 256 + d) :: words32 rest
  | _ => []

/-- Split a word list into blocks of sixteen words; the fuel argument is
an upper bound on the number of blocks. -/
def blocks16 : Nat → List Nat → List (List Nat)
  | _, [] => []
  | 0, _ => []
  | fuel + 1, ws => ws.take 16 :: blocks16 fuel (ws.drop 16)

/-- Extend a sixteen-word block by the given number of schedule steps. -/
def sha256sched (w : List Nat) : Nat → List Nat
  | 0 => w
  | n + 1 =>
    let v := sha256sched w n
    let L := v.length
    v ++ [w32 (mixS1 (v.getD (L - 2) 0) + v.getD (L - 7) 0 +
               mixS0 (v.getD (L - 15) 0) + v.getD (L - 16) 0)]

/-- One SHA-256 compression round on the eight working registers. -/
def sha256round (st : List Nat) (w k : Nat) : List Nat :=
  match st with
  | [a, b, c, d, e, f, g, h] =>
    let t1 := w32 (h + mixE e + ((e &&& f) ^^^ ((e ^^^ 4294967295) &&& g)) + k + w)
    let t2 := w32 (mixA a + ((a &&& b) ^^^ (a &&& c) ^^^ (b &&& c)))
    [w32 (t1 + t2), a, b, c, w32 (d + t1), e, f, g]
  | other => other

/-- Compress one sixteen-word block into the running hash state. -/
def sha256compress (H : List Nat) (block : List Nat) : List Nat :=
  let W := sha256sched block 48
  let st := (W.zip sha256K).foldl (fun st wk => sha256round st wk.1 wk.2) H
  (H.zip st).map (fun p => w32 (p.1 + p.2))

/-- Big-endian four-byte encoding of a 32-bit word. -/
def be32 (n : Nat) : List Nat :=
  [(n >>> 24) % 256, (n >>> 16) % 256, (n >>> 8) % 256, n % 256]

/-- SHA-256 digest of a byte sequence, as a 32-byte sequence.  Models the
`sha256(...).digest()` call of the source. -/
def sha256bytes (ms : List Nat) : List Nat :=
  let padded := words32 (sha256pad ms)
  let Hf := (blocks16 padded.length padded).foldl sha256compress sha256H0
  Hf.flatMap be32

/-- Big-endian integer value of a byte sequence, as computed by the
`int.from_bytes(key_bytes, "big")` call of the source. -/
def natOfBytesBE (l : List Nat) : Nat :=
  l.foldl (fun a b => 256 * a + b) 0

/-! ### Cell-reader adapter

The external cell library is modelled after the adapter interface of the
design document: a cell carries its bit payload, its child cells, and the
decoded dictionary view (the ordered key-to-cursor mapping that the
`readDictionary`/`load_dict` primitive yields for the cell). -/

/-- A cell of the content tree: bit payload, child cells, and the decoded
dictionary view of the remaining payload. -/
inductive Cell : Type where
  | mk : List Bool → List Cell → List (Nat × Cell) → Cell

/-- The bit payload of a cell. -/
def Cell.bits : Cell → List Bool
  | .mk b _ _ => b

/-- The child cells of a cell. -/
def Cell.refsOf : Cell → List Cell
  | .mk _ r _ => r

/-- A parsing cursor over one cell: the remaining bits, the child cells and
the dictionary view. -/
structure Slice where
  bits : List Bool
  refs : List Cell
  dict : List (Nat × Cell)

/-- `Cell.begin_parse`: open a cursor on a cell. -/
def begin_parse : Cell → Slice
  | .mk b r d => ⟨b, r, d⟩

/-- Snake-string reassembly over a cell chain: the bytes of the current
cell followed by the bytes of its first child, recursively.  Models the
`load_snake_string` adapter primitive, with text kept as bytes. -/
def Cell.snakeBytes : Cell → Option Str
  | .mk bits refs _ =>
    match bitsToBytes bits with
    | none => none
    | some bs =>
      match refs with
      | [] => some bs
      | c :: _ =>
        match Cell.snakeBytes c with
        | none => none
        | some tail => some (bs ++ tail)

/-- Snake-string reassembly starting from a cursor. -/
def sliceSnakeBytes (cs : Slice) : Option Str :=
  match bitsToBytes cs.bits with
  | none => none
  | some bs =>
    match cs.refs with
    | [] => some bs
    | c :: _ =>
      match Cell.snakeBytes c with
      | none => none
      | some tail => some (bs ++ tail)

/-! ### Decoder data model -/

/-- The error taxonomy of the parser.  `invalidPrefixError` and
`dataFetchingError` model the two `ContentParsingError` subclasses of the
source; `adapterError` stands for a structural failure raised by the
external cell library and propagated unmodified. -/
inductive PError : Type where
  | invalidPrefixError (value : Nat)
  | dataFetchingError (message : Str)
  | adapterError
  deriving DecidableEq

/-- The result records the handlers return. -/
inductive PResult : Type where
  | offchain (uri : Str) (data : Str)
  | onchain (metadata : List (String × Option Str))
  | customResult (data : String)
  deriving DecidableEq

/-- An entry of a handler registry: one of the two bound built-in
handlers, or a caller-supplied value.  `customEntry none` stands for a
registered Python `None` (a falsy value); `customEntry (some f)` for a
caller-supplied handler function. -/
inductive RegEntry : Type where
  | builtinOffchainHandler
  | builtinOnchainHandler
  | customEntry (f : Option (Slice → Except PError PResult))

/-- The decoder instance state: the four attributes `__init__` sets. -/
structure TEP64Parser where
  ipfs_endpoint : Str
  prefix_handlers : List (Nat × RegEntry)
  extra_default_values : List (String × Option Str)
  default_handlers : List (Nat × RegEntry)

/-- `TEP64Parser.__init__`: store the configuration and the two built-in
handlers (insertion order of the source: 0x01 then 0x00). -/
def TEP64Parser.init (ipfs_endpoint : Str) (handlers : List (Nat × RegEntry))
    (extra : List (String × Option Str)) : TEP64Parser :=
  { ipfs_endpoint := ipfs_endpoint
    prefix_handlers := handlers
    extra_default_values := extra
    default_handlers := [(1, .builtinOffchainHandler), (0, .builtinOnchainHandler)] }

/-- Outcome of one HTTP GET: a success body, or a network-level failure
(connection error, timeout, or the non-2xx status that
`raise_for_status` turns into an exception) carrying its cause. -/
inductive HttpOutcome : Type where
  | success (body : Str)
  | failure (cause : Str)
  deriving DecidableEq

/-- The network layer: the body or failure each URL elicits. -/
def Net : Type := Str → HttpOutcome

/-- Python `dict.get`: the value stored at a key of an association list
with distinct keys. -/
def assocGet {α β : Type} [DecidableEq α] : List (α × β) → α → Option β
  | [], _ => none
  | kv :: rest, key => if kv.1 = key then some kv.2 else assocGet rest key

/-- Python dict update / `{**base, **extra}` merge: the keys of `base` in
order with values replaced by `extra` where present, followed by the keys
of `extra` absent from `base`, in order. -/
def pyDictUpdate {α β : Type} [DecidableEq α] (base extra : List (α × β)) :
    List (α × β) :=
  (base.map fun kv =>
    match assocGet extra kv.1 with
    | some v => (kv.1, v)
    | none => kv)
  ++ extra.filter fun kv => (assocGet base kv.1).isNone

/-! ### Parser operations -/

/-- `TEP64Parser.parse_prefix` (lines 81-93): load eight bits from the
cursor and convert them with `int(prefix.to01())`, i.e. read the 0/1
digit string as a decimal numeral. -/
def parse_prefix_value (cs : Slice) : Option (Nat × Slice) :=
  if 8 ≤ cs.bits.length then
    some (pyIntOfBits (cs.bits.take 8), ⟨cs.bits.drop 8, cs.refs, cs.dict⟩)
  else none

/-- `TEP64Parser.calculate_key` (lines 137-149): the big-endian integer
value of the SHA-256 digest of the UTF-8 encoded attribute name. -/
def calculate_key (key_string : String) : Nat :=
  natOfBytesBE (sha256bytes (strBytes key_string))

/-- `TEP64Parser.load_metadata` (lines 124-135): read the 256-bit-keyed
dictionary of the cursor, via the adapter primitive. -/
def load_metadata (cs : Slice) : List (Nat × Cell) :=
  cs.dict

/-- The content-addressed scheme marker the source tests with
`uri.startswith`. -/
def ipfsScheme : Str := strBytes "ipfs://"

/-- One pass of Python `str.replace`, fuelled: replace each leftmost
non-overlapping occurrence of `pat` by `rep`, scanning left to right.
The fuel is an upper bound on the number of scanning steps. -/
def replaceAllFuel (pat rep : List Nat) : Nat → List Nat → List Nat
  | 0, s => s
  | _ + 1, [] => []
  | fuel + 1, c :: rest =>
    if pat ≠ [] ∧ List.isPrefixOf pat (c :: rest) then
      rep ++ replaceAllFuel pat rep fuel (List.drop pat.length (c :: rest))
    else
      c :: replaceAllFuel pat rep fuel rest

/-- Python `uri.replace(pat, rep)`: every occurrence of `pat` replaced by
`rep`. -/
def replaceAll (pat rep s : List Nat) : List Nat :=
  replaceAllFuel pat rep s.length s

/-- The URL `fetch_data` actually issues its GET against: the gateway
substitution applied to content-addressed URIs, the URI itself
otherwise. -/
def fetchTarget (p : TEP64Parser) (uri : Str) : Str :=
  if List.isPrefixOf ipfsScheme uri then replaceAll ipfsScheme p.ipfs_endpoint uri
  else uri

/-- `TEP64Parser.fetch_data` (lines 57-79): issue the GET (after gateway
substitution for `ipfs://` URIs), return the body on success and wrap any
network failure into a `DataFetchingError` carrying the cause. -/
def fetch_data (p : TEP64Parser) (net : Net) (uri : Str) : Except PError Str :=
  match (if List.isPrefixOf ipfsScheme uri
         then net (replaceAll ipfsScheme p.ipfs_endpoint uri)
         else net uri) with
  | .success body => .ok body
  | .failure e => .error (.dataFetchingError (strBytes "Error fetching data: " ++ e))

/-- The Python comparison on line 111, `cs.refs == 0`: its left operand
is the list of child cells of the cursor, and in Python a list value
never compares equal to an integer, so the test is false for every
cursor, including a childless one (where `[] == 0` is still False). -/
def pyRefsEqZero (_refs : List Cell) : Bool := false

/-- The URI-extraction part of `default_handle_offchain_content`
(lines 109-119).  The source text has two branches: re-read an embedded
eight-bit marker, reject a nonzero one and take the remainder as a
fixed-width string when `cs.refs == 0`; reassemble the snake string
otherwise.  Because that guard compares the child-cell list with the
integer 0 it is false for every cursor, so the first branch is dead code
and every cursor, childless or not, is snake-decoded; the dead branch is
kept here exactly as the source keeps it. -/
def offchain_uri (cs : Slice) : Except PError Str :=
  if pyRefsEqZero cs.refs then
    match parse_prefix_value cs with
    | none => .error .adapterError
    | some (pv, cs2) =>
      if pv ≠ 0 then .error (.invalidPrefixError pv)
      else
        match bitsToBytes cs2.bits with
        | none => .error .adapterError
        | some u => .ok u
  else
    match sliceSnakeBytes cs with
    | none => .error .adapterError
    | some u => .ok u

/-- `TEP64Parser.default_handle_offchain_content` (lines 95-122): extract
the URI, fetch it, and return the offchain record carrying the URI and
the fetched body. -/
def default_handle_offchain_content (p : TEP64Parser) (net : Net) (cs : Slice) :
    Except PError PResult :=
  match offchain_uri cs with
  | .error e => .error e
  | .ok uri =>
    match fetch_data p net uri with
    | .error e => .error e
    | .ok data => .ok (.offchain uri data)

/-- The nine fixed default attribute values of
`default_handle_onchain_content` (lines 162-172), in source order. -/
def tep64DefaultValues : List (String × Option Str) :=
  [("uri", none), ("name", none), ("description", none), ("image", none),
   ("image_data", none), ("symbol", none), ("decimals", some (strBytes "9")),
   ("amount_style", some (strBytes "n")), ("render_type", some (strBytes "currency"))]

/-- The effective default table: the fixed defaults updated in place with
the constructor-supplied extra values (line 174). -/
def effectiveDefaults (p : TEP64Parser) : List (String × Option Str) :=
  pyDictUpdate tep64DefaultValues p.extra_default_values

/-- The metadata loop of `default_handle_onchain_content` (lines 176-184):
for each attribute name of the table, look its hash key up in the cell
dictionary; keep the default when absent, decode the entry as a snake
string when present. -/
def onchainLoop (metadata : List (Nat × Cell)) :
    List (String × Option Str) → Except PError (List (String × Option Str))
  | [] => .ok []
  | (label, dv) :: rest =>
    match assocGet metadata (calculate_key label) with
    | none =>
      match onchainLoop metadata rest with
      | .ok tail => .ok ((label, dv) :: tail)
      | .error e => .error e
    | some chunk =>
      match Cell.snakeBytes chunk with
      | none => .error .adapterError
      | some v =>
        match onchainLoop metadata rest with
        | .ok tail => .ok ((label, some v) :: tail)
        | .error e => .error e

/-- `TEP64Parser.default_handle_onchain_content` (lines 151-186): build
the effective default table, read the dictionary, overlay the decoded
entries and return the onchain record. -/
def default_handle_onchain_content (p : TEP64Parser) (cs : Slice) :
    Except PError PResult :=
  match onchainLoop (load_metadata cs) (effectiveDefaults p) with
  | .ok all_metadata => .ok (.onchain all_metadata)
  | .error e => .error e

/-- `TEP64Parser.parse_content` (lines 188-213): open the cell, parse the
prefix, merge the custom handlers over the built-in ones, and dispatch;
a missing entry, or a registered falsy value, raises
`InvalidPrefixError` carrying the parsed value. -/
def parse_content (p : TEP64Parser) (net : Net) (content : Cell) :
    Except PError PResult :=
  match parse_prefix_value (begin_parse content) with
  | none => .error .adapterError
  | some (pv, cs2) =>
    match assocGet (pyDictUpdate p.default_handlers p.prefix_handlers) pv with
    | some .builtinOffchainHandler => default_handle_offchain_content p net cs2
    | some .builtinOnchainHandler => default_handle_onchain_content p cs2
    | some (.customEntry (some f)) => f cs2
    | some (.customEntry none) => .error (.invalidPrefixError pv)
    | none => .error (.invalidPrefixError pv)

/-! ### State-threaded variants

The same methods with the instance state passed explicitly in and out.
Each Python method body reads `self.ipfs_endpoint`,
`self.prefix_handlers`, `self.extra_default_values` or
`self.default_handlers` but contains no assignment to any attribute of
`self`, so every exit point of the translation returns the state the
callee handed back unchanged. -/

/-- `fetch_data` with the instance state threaded through. -/
def fetch_dataSt (p : TEP64Parser) (net : Net) (uri : Str) :
    Except PError Str × TEP64Parser :=
  (fetch_data p net uri, p)

/-- `default_handle_offchain_content` with the instance state threaded
through. -/
def default_handle_offchain_contentSt (p : TEP64Parser) (net : Net) (cs : Slice) :
    Except PError PResult × TEP64Parser :=
  match offchain_uri cs with
  | .error e => (.error e, p)
  | .ok uri =>
    match fetch_dataSt p net uri with
    | (.error e, p2) => (.error e, p2)
    | (.ok data, p2) => (.ok (.offchain uri data), p2)

/-- `default_handle_onchain_content` with the instance state threaded
through. -/
def default_handle_onchain_contentSt (p : TEP64Parser) (cs : Slice) :
    Except PError PResult × TEP64Parser :=
  match onchainLoop (load_metadata cs) (effectiveDefaults p) with
  | .ok all_metadata => (.ok (.onchain all_metadata), p)
  | .error e => (.error e, p)

/-- `parse_content` with the instance state threaded through. -/
def parse_contentSt (p : TEP64Parser) (net : Net) (content : Cell) :
    Except PError PResult × TEP64Parser :=
  match parse_prefix_value (begin_parse content) with
  | none => (.error .adapterError, p)
  | some (pv, cs2) =>
    match assocGet (pyDictUpdate p.default_handlers p.prefix_handlers) pv with
    | some .builtinOffchainHandler => default_handle_offchain_contentSt p net cs2
    | some .builtinOnchainHandler => default_handle_onchain_contentSt p cs2
    | some (.customEntry (some f)) => (f cs2, p)
    | some (.customEntry none) => (.error (.invalidPrefixError pv), p)
    | none => (.error (.invalidPrefixError pv), p)

/-! ### Fixtures for concrete evaluations -/

deriving instance DecidableEq for Except

/-- The custom handler of the usage example at the bottom of the source
(lines 216-236), registered there under prefix 0x02. -/
def exampleCustomFn : Slice → Except PError PResult :=
  fun _ => .ok (.customResult "custom handler logic")

/-- The default gateway base URL of the constructor. -/
def defaultEndpoint : Str := strBytes "https://ipfs.io/ipfs/"

/-- A decoder with no custom handlers and no extra defaults. -/
def pDemo : TEP64Parser := TEP64Parser.init defaultEndpoint [] []

/-- A decoder registering the example custom handler at prefix 0x02,
as the usage example of the source does. -/
def pCustom2 : TEP64Parser :=
  TEP64Parser.init defaultEndpoint [(2, .customEntry (some exampleCustomFn))] []

/-- A decoder whose caller registered the falsy value None at prefix 0. -/
def pFalsy0 : TEP64Parser :=
  TEP64Parser.init defaultEndpoint [(0, .customEntry none)] []

/-- A decoder overriding the decimals default. -/
def pExtraDecimals : TEP64Parser :=
  TEP64Parser.init defaultEndpoint [] [("decimals", some (strBytes "18"))]

/-- A decoder adding a fresh attribute to the default table. -/
def pExtraWebsite : TEP64Parser :=
  TEP64Parser.init defaultEndpoint [] [("website", some (strBytes "https://ton.org"))]

/-- A network on which every request fails. -/
def netFail : Net := fun _ => .failure (strBytes "boom")

/-- A network answering every request with the requested URL itself,
which makes the GET target observable. -/
def echoNet : Net := fun u => .success u

/-- A network answering every request with a fixed body. -/
def netPayload : Net := fun _ => .success (strBytes "payload")

/-- A root cell whose first byte is 0x02. -/
def cellByte2 : Cell := .mk (byteBits 2) [] []

/-- A root cell whose first byte is 0x05. -/
def cellByte5 : Cell := .mk (byteBits 5) [] []

/-- A root cell whose first byte is 0x00. -/
def cellByte0 : Cell := .mk (byteBits 0) [] []

/-- A cursor with no bits, no children and an empty dictionary. -/
def csEmptyDict : Slice := ⟨[], [], []⟩

/-- The childless off-chain payload of the usage example at the bottom of
the source (offchain_collection_content, cell bytes 0x01 then the URI):
the cursor as the handler receives it, positioned after the outer 0x01
prefix, with the URI bytes remaining, no children, and no embedded zero
marker (the first remaining byte is 0x68, the letter h). -/
def csOffchainDemo : Slice :=
  ⟨bytesToBits (strBytes "https://nft.fragment.com/numbers.json"), [], []⟩

set_option maxRecDepth 100000

/-! ### Helper lemmas -/

theorem bitFold_go_eq_zero (base : Nat) (hb : 2 ≤ base) (l : List Bool) (a : Nat) :
    List.foldl (fun x b => base * x + cond b 1 0) a l = 0 ↔
      a = 0 ∧ ∀ b ∈ l, b = false := by
  induction l generalizing a with
  | nil => simp
  | cons hd tl ih =>
    cases hd
    · simp only [List.foldl_cons, cond_false, Nat.add_zero, ih]
      constructor
      · rintro ⟨h, hall⟩
        have ha : a = 0 := by
          rcases Nat.mul_eq_zero.mp h with h2 | h2
          · omega
          · exact h2
        exact ⟨ha, by simpa using hall⟩
      · rintro ⟨ha, hall⟩
        exact ⟨by simp [ha], fun b hb2 => hall b (List.mem_cons_of_mem _ hb2)⟩
    · simp only [List.foldl_cons, cond_true, ih]
      constructor
      · rintro ⟨h, -⟩
        omega
      · rintro ⟨-, hall⟩
        have := hall true (by simp)
        simp at this

theorem bitFold_eq_zero_iff (base : Nat) (hb : 2 ≤ base) (l : List Bool) :
    bitFold base l = 0 ↔ ∀ b ∈ l, b = false := by
  unfold bitFold
  rw [bitFold_go_eq_zero base hb l 0]
  simp

theorem pyInt_zero_iff_bitsBE_zero (l : List Bool) :
    pyIntOfBits l = 0 ↔ bitsToNatBE l = 0 := by
  unfold pyIntOfBits bitsToNatBE
  rw [bitFold_eq_zero_iff 10 (by omega), bitFold_eq_zero_iff 2 (by omega)]

theorem replaceAllFuel_no_occurrence (pat rep : List Nat) :
    ∀ (fuel : Nat) (s : List Nat), s.length ≤ fuel → ¬ pat <:+: s →
      replaceAllFuel pat rep fuel s = s := by
  intro fuel
  induction fuel with
  | zero => intro s _ _; rfl
  | succ n ih =>
    intro s hlen hocc
    cases s with
    | nil => rfl
    | cons c rest =>
      simp only [replaceAllFuel]
      rw [if_neg, ih rest (by simp at hlen; omega) (fun h => hocc (List.infix_cons h))]
      rintro ⟨-, hpre⟩
      exact hocc ((List.isPrefixOf_iff_prefix.mp hpre).isInfix)

theorem replaceAll_gateway (pat rep rest : List Nat) (hpat : pat ≠ [])
    (hnr : ¬ pat <:+: rest) :
    replaceAll pat rep (pat ++ rest) = rep ++ rest := by
  obtain ⟨c, pat2, rfl⟩ : ∃ c pat2, pat = c :: pat2 := by
    cases pat with
    | nil => exact absurd rfl hpat
    | cons c pat2 => exact ⟨c, pat2, rfl⟩
  unfold replaceAll
  simp only [List.cons_append, List.length_cons, List.length_append]
  rw [replaceAllFuel]
  rw [if_pos ⟨hpat, List.isPrefixOf_iff_prefix.mpr (by exact List.prefix_append _ _)⟩]
  have hdrop : List.drop (c :: pat2).length (c :: (pat2 ++ rest)) = rest := by
    simp
  rw [hdrop, replaceAllFuel_no_occurrence (c :: pat2) rep _ rest (by omega) hnr]

theorem assocGet_append {α β : Type} [DecidableEq α] (xs ys : List (α × β)) (k : α) :
    assocGet (xs ++ ys) k =
      match assocGet xs k with
      | some v => some v
      | none => assocGet ys k := by
  induction xs with
  | nil => simp [assocGet]
  | cons kv rest ih =>
    by_cases h : kv.1 = k <;> simp [assocGet, h, ih]

theorem assocGet_update_of_mem {α β : Type} [DecidableEq α]
    (base extra : List (α × β)) (k : α) (v : β)
    (hmem : k ∈ base.map Prod.fst) (hx : assocGet extra k = some v) :
    assocGet (pyDictUpdate base extra) k = some v := by
  unfold pyDictUpdate
  rw [assocGet_append]
  have hmap : assocGet
      (base.map fun kv =>
        match assocGet extra kv.1 with
        | some v2 => (kv.1, v2)
        | none => kv) k = some v := by
    induction base with
    | nil => simp at hmem
    | cons kv rest ih =>
      simp only [List.map_cons]
      by_cases h : kv.1 = k
      · simp [assocGet, h, hx]
      · have hfst : (match assocGet extra kv.1 with
            | some v2 => (kv.1, v2)
            | none => kv).1 = kv.1 := by
          cases assocGet extra kv.1 <;> rfl
        rw [assocGet, if_neg (by rw [hfst]; exact h)]
        apply ih
        simp only [List.map_cons, List.mem_cons] at hmem
        rcases hmem with h2 | h2
        · exact absurd h2.symm h
        · exact h2
  rw [hmap]

theorem onchainLoop_ok_iff (m : List (Nat × Cell)) :
    ∀ (T md : List (String × Option Str)),
      onchainLoop m T = .ok md ↔
        List.Forall₂ (fun t u => u.1 = t.1 ∧
          (match assocGet m (calculate_key t.1) with
           | none => u.2 = t.2
           | some chunk => ∃ v, Cell.snakeBytes chunk = some v ∧ u.2 = some v))
          T md := by
  intro T
  induction T with
  | nil =>
    intro md
    constructor
    · intro h
      simp only [onchainLoop, Except.ok.injEq] at h
      rw [← h]
      exact List.Forall₂.nil
    · intro h
      cases h
      rfl
  | cons lv rest ih =>
    intro md
    obtain ⟨label, dv⟩ := lv
    constructor
    · intro h
      cases hget : assocGet m (calculate_key label) with
      | none =>
        simp only [onchainLoop, hget] at h
        cases hrec : onchainLoop m rest with
        | ok tail =>
          rw [hrec] at h
          simp only [Except.ok.injEq] at h
          rw [← h]
          exact List.Forall₂.cons (by simp [hget]) ((ih tail).mp hrec)
        | error e =>
          rw [hrec] at h
          simp at h
      | some chunk =>
        simp only [onchainLoop, hget] at h
        cases hsnake : Cell.snakeBytes chunk with
        | none =>
          rw [hsnake] at h
          simp at h
        | some v =>
          rw [hsnake] at h
          cases hrec : onchainLoop m rest with
          | ok tail =>
            rw [hrec] at h
            simp only [Except.ok.injEq] at h
            rw [← h]
            exact List.Forall₂.cons ⟨rfl, by simp [hget, hsnake]⟩ ((ih tail).mp hrec)
          | error e =>
            rw [hrec] at h
            simp at h
    · intro h
      cases h with
      | cons hhead htail =>
        rename_i u tail
        obtain ⟨hfst, hrel⟩ := hhead
        dsimp only at hfst hrel
        cases hget : assocGet m (calculate_key label) with
        | none =>
          simp only [hget] at hrel
          have hu : u = (label, dv) := Prod.ext hfst hrel
          simp only [onchainLoop, hget, (ih tail).mpr htail, hu]
        | some chunk =>
          simp only [hget] at hrel
          obtain ⟨v, hsnake, hu2⟩ := hrel
          have hu : u = (label, some v) := Prod.ext hfst hu2
          simp only [onchainLoop, hget, hsnake, (ih tail).mpr htail, hu]

theorem onchainLoop_fst (m : List (Nat × Cell)) (T md : List (String × Option Str))
    (h : onchainLoop m T = .ok md) : md.map Prod.fst = T.map Prod.fst := by
  have hf := (onchainLoop_ok_iff m T md).mp h
  clear h
  induction hf with
  | nil => rfl
  | cons hhead htail ih => simp [ih, hhead.1]

theorem onchainLoop_allNone (m : List (Nat × Cell)) (T : List (String × Option Str))
    (h : ∀ lv ∈ T, assocGet m (calculate_key lv.1) = none) :
    onchainLoop m T = .ok T := by
  induction T with
  | nil => rfl
  | cons lv rest ih =>
    obtain ⟨label, dv⟩ := lv
    simp only [onchainLoop]
    rw [h (label, dv) (by simp), ih (fun lv2 hm => h lv2 (List.mem_cons_of_mem _ hm))]

theorem onchainLoop_congr (m1 m2 : List (Nat × Cell)) (T : List (String × Option Str))
    (h : ∀ lv ∈ T, assocGet m1 (calculate_key lv.1) = assocGet m2 (calculate_key lv.1)) :
    onchainLoop m1 T = onchainLoop m2 T := by
  induction T with
  | nil => rfl
  | cons lv rest ih =>
    obtain ⟨label, dv⟩ := lv
    simp only [onchainLoop]
    rw [h (label, dv) (by simp), ih (fun lv2 hm => h lv2 (List.mem_cons_of_mem _ hm))]

theorem onchainLoop_assocGet_absent (m : List (Nat × Cell)) (L : String)
    (hnone : assocGet m (calculate_key L) = none) :
    ∀ (T md : List (String × Option Str)), onchainLoop m T = .ok md →
      assocGet md L = assocGet T L := by
  intro T
  induction T with
  | nil =>
    intro md h
    simp only [onchainLoop, Except.ok.injEq] at h
    rw [← h]
  | cons lv rest ih =>
    intro md h
    obtain ⟨label, dv⟩ := lv
    by_cases heq : label = L
    · subst heq
      simp only [onchainLoop, hnone] at h
      cases hrec : onchainLoop m rest with
      | ok tail =>
        rw [hrec] at h
        simp only [Except.ok.injEq] at h
        rw [← h]
        simp [assocGet]
      | error e =>
        rw [hrec] at h
        simp at h
    · cases hget : assocGet m (calculate_key label) with
      | none =>
        simp only [onchainLoop, hget] at h
        cases hrec : onchainLoop m rest with
        | ok tail =>
          rw [hrec] at h
          simp only [Except.ok.injEq] at h
          rw [← h]
          simp [assocGet, heq, ih tail hrec]
        | error e =>
          rw [hrec] at h
          simp at h
      | some chunk =>
        simp only [onchainLoop, hget] at h
        cases hsnake : Cell.snakeBytes chunk with
        | none =>
          rw [hsnake] at h
          simp at h
        | some v =>
          rw [hsnake] at h
          cases hrec : onchainLoop m rest with
          | ok tail =>
            rw [hrec] at h
            simp only [Except.ok.injEq] at h
            rw [← h]
            simp [assocGet, heq, ih tail hrec]
          | error e =>
            rw [hrec] at h
            simp at h

theorem offchain_uri_snake (cs : Slice) (u : Str)
    (hs : sliceSnakeBytes cs = some u) : offchain_uri cs = .ok u := by
  unfold offchain_uri
  simp only [pyRefsEqZero, Bool.false_eq_true, if_false, hs]

theorem offchain_handler_of_uri (p : TEP64Parser) (net : Net) (cs : Slice) (u : Str)
    (h : offchain_uri cs = .ok u) :
    default_handle_offchain_content p net cs =
      match fetch_data p net u with
      | .ok data => .ok (.offchain u data)
      | .error e => .error e := by
  unfold default_handle_offchain_content
  rw [h]
  cases hf : fetch_data p net u <;> simp [hf]

theorem offchain_handler_of_uri_error (p : TEP64Parser) (net : Net) (cs : Slice)
    (e : PError) (h : offchain_uri cs = .error e) :
    default_handle_offchain_content p net cs = .error e := by
  unfold default_handle_offchain_content
  rw [h]

theorem st_offchain_eq (p : TEP64Parser) (net : Net) (cs : Slice) :
    default_handle_offchain_contentSt p net cs =
      (default_handle_offchain_content p net cs, p) := by
  unfold default_handle_offchain_contentSt default_handle_offchain_content fetch_dataSt
  cases offchain_uri cs with
  | error e => rfl
  | ok uri =>
    cases hf : fetch_data p net uri with
    | error e => simp [hf]
    | ok d => simp [hf]

theorem st_onchain_eq (p : TEP64Parser) (cs : Slice) :
    default_handle_onchain_contentSt p cs =
      (default_handle_onchain_content p cs, p) := by
  unfold default_handle_onchain_contentSt default_handle_onchain_content
  cases onchainLoop (load_metadata cs) (effectiveDefaults p) <;> rfl

theorem parse_contentSt_eq (p : TEP64Parser) (net : Net) (content : Cell) :
    parse_contentSt p net content = (parse_content p net content, p) := by
  unfold parse_contentSt parse_content
  cases parse_prefix_value (begin_parse content) with
  | none => rfl
  | some pc =>
    obtain ⟨pv, cs2⟩ := pc
    cases hget : assocGet (pyDictUpdate p.default_handlers p.prefix_handlers) pv with
    | none => simp [hget]
    | some entry =>
      cases entry with
      | builtinOffchainHandler => simp [hget, st_offchain_eq]
      | builtinOnchainHandler => simp [hget, st_onchain_eq]
      | customEntry f => cases f <;> simp [hget]

theorem onchain_handler_loop (p : TEP64Parser) (cs : Slice)
    (md : List (String × Option Str))
    (hok : default_handle_onchain_content p cs = .ok (.onchain md)) :
    onchainLoop (load_metadata cs) (effectiveDefaults p) = .ok md := by
  unfold default_handle_onchain_content at hok
  cases hl : onchainLoop (load_metadata cs) (effectiveDefaults p) with
  | ok am =>
    rw [hl] at hok
    simp only [Except.ok.injEq, PResult.onchain.injEq] at hok
    rw [← hok]
  | error e =>
    rw [hl] at hok
    simp at hok

/-! ### Claim theorems -/

/-- Claim C3: for every root cell whose parsed 8-bit prefix value has no
entry in the merged handler registry, parse_content fails with
InvalidPrefixError carrying that value; since the result type is an
exclusive success-or-error sum, no partial result is produced. -/
theorem unknown_prefix_rejected (p : TEP64Parser) (net : Net) (content : Cell)
    (v : Nat) (cs2 : Slice)
    (hparse : parse_prefix_value (begin_parse content) = some (v, cs2))
    (hmiss : assocGet (pyDictUpdate p.default_handlers p.prefix_handlers) v = none) :
    parse_content p net content = .error (.invalidPrefixError v) := by
  simp [parse_content, hparse, hmiss]

/-- Witness for C3: the default decoder on a root cell with first byte
0x05 (parsed by the source as the decimal numeral 101) fails with
InvalidPrefixError 101. -/
theorem unknown_prefix_rejected_witness :
    parse_content pDemo netFail cellByte5 = .error (.invalidPrefixError 101) :=
  unknown_prefix_rejected pDemo netFail cellByte5 101 ⟨[], [], []⟩ rfl rfl

/-- Claim C10: when the caller registers a falsy value (Python None) as
the handler of some prefix, a cell with that parsed prefix value fails
with InvalidPrefixError instead of dispatching, because the source tests
the looked-up entry for truthiness rather than key membership. -/
theorem falsy_handler_rejected (p : TEP64Parser) (net : Net) (content : Cell)
    (v : Nat) (cs2 : Slice)
    (hparse : parse_prefix_value (begin_parse content) = some (v, cs2))
    (hfalsy : assocGet (pyDictUpdate p.default_handlers p.prefix_handlers) v
      = some (.customEntry none)) :
    parse_content p net content = .error (.invalidPrefixError v) := by
  simp [parse_content, hparse, hfalsy]

/-- Witness for C10: registering None at prefix 0 overrides the built-in
on-chain handler, and a cell with first byte 0x00 then fails with
InvalidPrefixError 0. -/
theorem falsy_handler_rejected_witness :
    parse_content pFalsy0 netFail cellByte0 = .error (.invalidPrefixError 0) :=
  falsy_handler_rejected pFalsy0 netFail cellByte0 0 ⟨[], [], []⟩ rfl rfl

/-- Claim C1 (code evidence): the merged registry of pCustom2 does carry a
handler at prefix 2, yet a cell whose first byte is 0x02 is not dispatched
to it: parse_prefix reads the eight bits 00000010 and converts them with
int(bits.to01()), which parses the digit string as the decimal numeral 10,
so dispatch looks up key 10 and fails with InvalidPrefixError 10.  The
true unsigned value of those bits is 2. -/
theorem prefix_dispatch_base10_failure :
    parse_content pCustom2 netFail cellByte2 = .error (.invalidPrefixError 10)
    ∧ assocGet (pyDictUpdate pCustom2.default_handlers pCustom2.prefix_handlers) 2
        = some (.customEntry (some exampleCustomFn))
    ∧ pyIntOfBits (byteBits 2) = 10
    ∧ bitsToNatBE (byteBits 2) = 2 :=
  ⟨rfl, rfl, by decide, by decide⟩

/-- Claim C8: calculate_key is a function of the attribute name alone and
equals the big-endian integer value of the SHA-256 digest of the UTF-8
encoding of the name; on the fixed string name it reproduces the
published reference vector. -/
theorem calculate_key_reference_vector :
    calculate_key "name" =
      0x82a3537ff0dbce7eec35d69edc3a189ee6f17d82f353a553f9aa96cb0be3ce89
    ∧ (∀ s : String, calculate_key s = natOfBytesBE (sha256bytes (strBytes s))) :=
  ⟨by decide, fun _ => rfl⟩

/-- Claim C9: a parse_content call leaves the decoder configuration
untouched: in the state-threaded translation, whose every method returns
the instance state along with its result, the state coming out of any
call (successful or failing) is the state that went in, and the result
agrees with the stateless translation. -/
theorem parse_content_preserves_config (p : TEP64Parser) (net : Net) (content : Cell) :
    (parse_contentSt p net content).2 = p
    ∧ (parse_contentSt p net content).1 = parse_content p net content := by
  rw [parse_contentSt_eq]
  exact ⟨rfl, rfl⟩

/-- Claim C6: fetch_data has exactly two outcomes, decided by the network
answer for the one URL it targets: a failure is wrapped into
DataFetchingError carrying the cause appended to the fixed message, and a
success returns the body unchanged. -/
theorem fetch_failure_wrapping (p : TEP64Parser) (net : Net) (uri : Str) :
    (∀ e, net (fetchTarget p uri) = .failure e →
       fetch_data p net uri =
         .error (.dataFetchingError (strBytes "Error fetching data: " ++ e)))
    ∧ (∀ b, net (fetchTarget p uri) = .success b → fetch_data p net uri = .ok b) := by
  constructor
  · intro e he
    cases hc : List.isPrefixOf ipfsScheme uri <;>
      simp only [fetchTarget, hc, if_true, if_false, Bool.false_eq_true] at he <;>
      simp [fetch_data, hc, he]
  · intro b hb
    cases hc : List.isPrefixOf ipfsScheme uri <;>
      simp only [fetchTarget, hc, if_true, if_false, Bool.false_eq_true] at hb <;>
      simp [fetch_data, hc, hb]

/-- Witness for C6: on a network where every request fails with cause
boom, fetch_data surfaces DataFetchingError with the wrapped message. -/
theorem fetch_failure_wrapping_witness :
    fetch_data pDemo netFail (strBytes "https://x")
      = .error (.dataFetchingError (strBytes "Error fetching data: boom")) := by
  have h := (fetch_failure_wrapping pDemo netFail (strBytes "https://x")).1
    (strBytes "boom") rfl
  rw [h]
  decide

/-- Claim C2: a successful on-chain decode covers exactly the attribute
names of the effective default table, in order: pointwise, a name whose
hash key is found in the cell dictionary carries the snake-string decoding
of that entry, and a name whose hash key is absent keeps its default;
moreover a dictionary in which no attribute key is found decodes to the
effective default table exactly, and the result depends on the dictionary
only through the lookups at the attribute keys, so entries under any other
key are ignored. -/
theorem onchain_metadata_contract (p : TEP64Parser) (cs : Slice)
    (md : List (String × Option Str))
    (hok : default_handle_onchain_content p cs = .ok (.onchain md)) :
    md.map Prod.fst = (effectiveDefaults p).map Prod.fst
    ∧ List.Forall₂ (fun t u => u.1 = t.1 ∧
        (match assocGet (load_metadata cs) (calculate_key t.1) with
         | none => u.2 = t.2
         | some chunk => ∃ v, Cell.snakeBytes chunk = some v ∧ u.2 = some v))
        (effectiveDefaults p) md
    ∧ ((∀ name, name ∈ (effectiveDefaults p).map Prod.fst →
          assocGet (load_metadata cs) (calculate_key name) = none) →
        default_handle_onchain_content p cs = .ok (.onchain (effectiveDefaults p)))
    ∧ (∀ cs2 : Slice,
        (∀ name, name ∈ (effectiveDefaults p).map Prod.fst →
          assocGet (load_metadata cs2) (calculate_key name)
            = assocGet (load_metadata cs) (calculate_key name)) →
        default_handle_onchain_content p cs2 = default_handle_onchain_content p cs) := by
  have hloop := onchain_handler_loop p cs md hok
  refine ⟨onchainLoop_fst _ _ _ hloop,
    (onchainLoop_ok_iff (load_metadata cs) (effectiveDefaults p) md).mp hloop, ?_, ?_⟩
  · intro hall
    unfold default_handle_onchain_content
    rw [onchainLoop_allNone _ _
      (fun lv hm => hall lv.1 (List.mem_map.mpr ⟨lv, hm, rfl⟩))]
  · intro cs2 hagree
    unfold default_handle_onchain_content
    rw [onchainLoop_congr (load_metadata cs2) (load_metadata cs) (effectiveDefaults p)
      (fun lv hm => hagree lv.1 (List.mem_map.mpr ⟨lv, hm, rfl⟩))]

/-- Witness for C2: with one extra default registered, a cell whose
dictionary is empty decodes to the effective default table exactly, whose
names are the nine standard attributes followed by the extra one. -/
theorem onchain_metadata_contract_witness :
    default_handle_onchain_content pExtraWebsite csEmptyDict
      = .ok (.onchain (effectiveDefaults pExtraWebsite))
    ∧ (effectiveDefaults pExtraWebsite).map Prod.fst =
        ["uri", "name", "description", "image", "image_data", "symbol",
         "decimals", "amount_style", "render_type", "website"] := by
  have h := onchain_metadata_contract pExtraWebsite csEmptyDict
    (effectiveDefaults pExtraWebsite) rfl
  exact ⟨h.2.2.1 (fun name _ => rfl), rfl⟩

/-- Claim C7: a caller-supplied default overrides the built-in default of
the same attribute name in the effective table, and in particular, when
the dictionary lacks the key of decimals, the decoded metadata carries
the caller-supplied decimals value in place of the built-in 9. -/
theorem override_precedence_decimals (p : TEP64Parser) (cs : Slice) (v : Option Str)
    (hdec : assocGet p.extra_default_values "decimals" = some v) :
    assocGet (effectiveDefaults p) "decimals" = some v
    ∧ (∀ (name : String) (w : Option Str),
        name ∈ tep64DefaultValues.map Prod.fst →
        assocGet p.extra_default_values name = some w →
        assocGet (effectiveDefaults p) name = some w)
    ∧ (∀ md, assocGet (load_metadata cs) (calculate_key "decimals") = none →
        default_handle_onchain_content p cs = .ok (.onchain md) →
        assocGet md "decimals" = some v) := by
  have hgen : ∀ (name : String) (w : Option Str),
      name ∈ tep64DefaultValues.map Prod.fst →
      assocGet p.extra_default_values name = some w →
      assocGet (effectiveDefaults p) name = some w := by
    intro name w hmem hx
    exact assocGet_update_of_mem _ _ _ _ hmem hx
  have hdec2 : assocGet (effectiveDefaults p) "decimals" = some v :=
    hgen "decimals" v (by simp [tep64DefaultValues]) hdec
  refine ⟨hdec2, hgen, ?_⟩
  intro md hnone hok
  have hloop := onchain_handler_loop p cs md hok
  have habs := onchainLoop_assocGet_absent (load_metadata cs) "decimals" hnone
    (effectiveDefaults p) md hloop
  rw [habs, hdec2]

/-- Witness for C7: with decimals overridden to 18 and an empty
dictionary, the decoded metadata carries 18 for decimals; 18 and the
built-in 9 are distinct values. -/
theorem override_precedence_decimals_witness :
    assocGet (effectiveDefaults pExtraDecimals) "decimals"
      = some (some (strBytes "18"))
    ∧ strBytes "18" ≠ strBytes "9"
    ∧ assocGet tep64DefaultValues "decimals" = some (some (strBytes "9")) := by
  have h := override_precedence_decimals pExtraDecimals csEmptyDict
    (some (strBytes "18")) rfl
  exact ⟨h.2.2 (effectiveDefaults pExtraDecimals) rfl rfl, by decide, by decide⟩

/-- Claim C4 (code evidence): the no-children marker shape of the claim
is dead code.  csOffchainDemo is the childless off-chain payload of the
repo demo; it carries no zero marker (its first remaining byte is 0x68),
so under the claim the handler must raise InvalidPrefixError.  It does
not: the guard compares the child-cell list with the integer 0 and is
false for every cursor, the snake branch runs even though the cursor has
no children, and the entire remainder, marker position included, becomes
the URI of a successful offchain record. -/
theorem offchain_dead_marker_branch :
    default_handle_offchain_content pDemo netPayload csOffchainDemo
      = .ok (.offchain (strBytes "https://nft.fragment.com/numbers.json")
             (strBytes "payload"))
    ∧ csOffchainDemo.refs = []
    ∧ bitsToNatBE (List.take 8 csOffchainDemo.bits) ≠ 0
    ∧ (∀ refs : List Cell, pyRefsEqZero refs = false) :=
  ⟨by decide, rfl, by decide, fun _ => rfl⟩

/-- Claim C5 (counterexample): because the source substitutes the gateway
with uri.replace, which replaces every occurrence of the scheme marker,
a URI containing the marker twice is fetched from a URL in which both
occurrences are substituted; the echo network exposes the requested URL,
and it differs from the gateway base followed by the remainder of the URI
after the leading marker. -/
theorem gateway_substitution_counterexample :
    fetch_data pDemo echoNet (strBytes "ipfs://a/ipfs://b")
      = .ok (strBytes "https://ipfs.io/ipfs/a/https://ipfs.io/ipfs/b")
    ∧ strBytes "https://ipfs.io/ipfs/a/https://ipfs.io/ipfs/b"
        ≠ pDemo.ipfs_endpoint ++ strBytes "a/ipfs://b" := by
  exact ⟨by decide, by decide⟩

/-- Claim C5 (amended): for a URI that begins with the content-addressed
scheme marker, the GET is issued against the URI with every occurrence of
the marker replaced by the configured gateway base, which equals the
gateway base followed by the remainder whenever the marker does not occur
again after the leading one; any other URI is fetched directly; and the
off-chain result carries the URI decoded from the cell unmodified. -/
theorem gateway_substitution_amended (p : TEP64Parser) (net : Net) (uri rest : Str)
    (hsplit : uri = ipfsScheme ++ rest) (hnr : ¬ ipfsScheme <:+: rest) :
    replaceAll ipfsScheme p.ipfs_endpoint uri = p.ipfs_endpoint ++ rest
    ∧ fetch_data p net uri =
        (match net (p.ipfs_endpoint ++ rest) with
         | .success body => .ok body
         | .failure e =>
             .error (.dataFetchingError (strBytes "Error fetching data: " ++ e)))
    ∧ (∀ u2 : Str, List.isPrefixOf ipfsScheme u2 = false →
        fetch_data p net u2 =
          (match net u2 with
           | .success body => .ok body
           | .failure e =>
               .error (.dataFetchingError (strBytes "Error fetching data: " ++ e))))
    ∧ (∀ (cs : Slice) (u3 : Str), cs.refs ≠ [] → sliceSnakeBytes cs = some u3 →
        default_handle_offchain_content p net cs =
          match fetch_data p net u3 with
          | .ok data => .ok (.offchain u3 data)
          | .error e => .error e) := by
  have hrepl : replaceAll ipfsScheme p.ipfs_endpoint uri = p.ipfs_endpoint ++ rest := by
    rw [hsplit]
    exact replaceAll_gateway ipfsScheme p.ipfs_endpoint rest (by decide) hnr
  refine ⟨hrepl, ?_, ?_, ?_⟩
  · have hpre : List.isPrefixOf ipfsScheme uri = true := by
      rw [hsplit]
      exact List.isPrefixOf_iff_prefix.mpr (List.prefix_append _ _)
    simp [fetch_data, hpre, hrepl]
  · intro u2 hp2
    simp [fetch_data, hp2]
  · intro cs u3 _hrefs hsnake
    exact offchain_handler_of_uri p net cs u3 (offchain_uri_snake cs u3 hsnake)

/-- Witness for the amended C5: fetching the scheme URI on the echo
network requests exactly the gateway base followed by the remainder. -/
theorem gateway_substitution_amended_witness :
    fetch_data pDemo echoNet (strBytes "ipfs://abc")
      = .ok (strBytes "https://ipfs.io/ipfs/abc") := by
  have h := (gateway_substitution_amended pDemo echoNet (strBytes "ipfs://abc")
      (strBytes "abc") (by decide) (by decide)).2.1
  rw [h]
  decide
